import Mathlib

/-!
Verification development for the e-commerce microservices repository
(login-service, order-service, product-service over a PostgreSQL store).

Shallow embedding notes:
* The relational store is modelled as a `Db` record of row lists; a SQL
  transaction is modelled by threading a working state and, on any error,
  returning the original state (BEGIN / COMMIT / ROLLBACK semantics).
* `DECIMAL(10,2)` money values are modelled as exact rationals (`ℚ`);
  inserts enforce the column's range (`numeric field overflow` otherwise).
  A separate binary64 model (`round64`, `jsMul`, `jsAdd`, `jsTotalAmount`)
  captures the floating-point evaluation that the JavaScript engine actually
  performs for the total-accumulation loop, and is used for the numerical
  claim about rounding.
* Nullable SQL columns and possibly-absent JSON fields are `Option`s.
  JavaScript quirks that the order-creation code path can actually hit are
  modelled explicitly: a comparison with `undefined` is `false`
  (`stockLt`), SQL `NULL` read into a JS number comparison coerces to `0`,
  `undefined` arithmetic produces `NaN` (`none` in `Option ℚ` amounts, which
  PostgreSQL `numeric` accepts as a value), and subtracting SQL `NULL`
  yields `NULL` (`sqlSub`).
* `jwt.verify` and JSON serialization are opaque primitives: the token
  decoder is passed as an `Option Int` oracle (decoded user claims when the
  signature verifies), and the cache stores the product list itself.
-/

/-- A row of `products` (init.sql): `id SERIAL, name, price DECIMAL(10,2)
NOT NULL, stock_quantity INTEGER DEFAULT 0` (nullable), `is_active BOOLEAN`.
Columns not read by the order flow (description, sku, …) are omitted. -/
structure Product where
  id : Int
  name : String
  price : ℚ
  stock_quantity : Option Int
  is_active : Bool
deriving DecidableEq, Repr

/-- A row of `orders`: `id SERIAL, user_id, total_amount DECIMAL(10,2) NOT
NULL, status VARCHAR DEFAULT 'pending', shipping_address, billing_address`.
`total_amount = none` models the `numeric` value `NaN` (which PostgreSQL
accepts and which satisfies NOT NULL). -/
structure Order where
  id : Int
  user_id : Int
  total_amount : Option ℚ
  status : String
  shipping_address : Option String
  billing_address : Option String
deriving DecidableEq, Repr

/-- A row of `order_items`: `order_id, product_id, quantity INTEGER NOT
NULL, unit_price DECIMAL(10,2) NOT NULL, total_price DECIMAL(10,2) NOT
NULL`. `total_price = none` models the `numeric` value `NaN`. -/
structure OrderItem where
  order_id : Int
  product_id : Int
  quantity : Int
  unit_price : ℚ
  total_price : Option ℚ
deriving DecidableEq, Repr

/-- The relational store visible to the order service: the `users` table is
reduced to its primary keys (only the `orders.user_id` foreign key reads
it), plus the `products`, `orders` and `order_items` tables and the next
`orders.id` SERIAL value. -/
structure Db where
  users : List Int
  products : List Product
  orders : List Order
  order_items : List OrderItem
  nextOrderId : Int
deriving DecidableEq, Repr

/-- One entry of the request body's `items` array; either JSON field may be
absent (`undefined`). -/
structure RawItem where
  product_id : Option Int
  quantity : Option Int
deriving DecidableEq, Repr

/-- The `POST /api/orders` request body. -/
structure OrderRequest where
  user_id : Option Int
  items : Option (List RawItem)
  shipping_address : Option String
  billing_address : Option String
deriving DecidableEq, Repr

/-- JS template-literal rendering of a possibly-undefined number. -/
def showOptInt : Option Int → String
  | none => "undefined"
  | some n => toString n

/-- JS template-literal rendering of a number column that may hold SQL NULL. -/
def showStock : Option Int → String
  | none => "null"
  | some n => toString n

/-- The JS comparison `product.stock_quantity < item.quantity`: any
comparison with `undefined` is false; SQL `NULL` coerces to `0`. -/
def stockLt (stock : Option Int) (qty : Option Int) : Bool :=
  match qty with
  | none => false
  | some q => decide (stock.getD 0 < q)

/-- The SQL update `stock_quantity = stock_quantity - $1`: subtracting
`NULL` (an undefined JS parameter) yields `NULL`. -/
def sqlSub (s : Option Int) (q : Option Int) : Option Int :=
  match s, q with
  | some a, some b => some (a - b)
  | _, _ => none

/-- The SQL update `stock_quantity = stock_quantity + $1` with a NOT NULL
parameter. -/
def sqlAdd (s : Option Int) (q : Int) : Option Int :=
  s.map (· + q)

/-- `parseFloat(product.price) * item.quantity` in the exact-rational
idealization: `undefined` quantity gives `NaN` (`none`). -/
def mulQty (price : ℚ) (qty : Option Int) : Option ℚ :=
  qty.map (fun q => price * (q : ℚ))

/-- `totalAmount += itemTotal`: `NaN` propagates through addition. -/
def addAmt : Option ℚ → Option ℚ → Option ℚ
  | some a, some b => some (a + b)
  | _, _ => none

/-- `SELECT … FROM products WHERE id = $1 AND is_active = true` followed by
`rows[0]`; an undefined `$1` is sent as NULL and matches no row. -/
def findActiveProduct (ps : List Product) (pid : Option Int) : Option Product :=
  ps.find? (fun p => pid == some p.id && p.is_active)

/-- `UPDATE products SET stock_quantity = stock_quantity - $1 WHERE id = $2`
(applied to every row whose `id` matches, as SQL does). -/
def updateStockSub (ps : List Product) (pid : Int) (q : Option Int) : List Product :=
  ps.map (fun p => if p.id = pid then { p with stock_quantity := sqlSub p.stock_quantity q } else p)

/-- An element of the `processedItems` array built by the creation loop;
`quantity`/`total_price` may be `undefined`/`NaN` for malformed lines. -/
structure ProcessedItem where
  product_id : Int
  quantity : Option Int
  unit_price : ℚ
  total_price : Option ℚ
deriving DecidableEq, Repr

/-- The per-line loop of `POST /api/orders` (order-service): look the
product up (must exist and be active), check requested quantity against the
stock currently visible in the transaction, accumulate the total, record
the processed item and decrement the stock.  Errors carry the exact
`throw new Error(…)` message. -/
def processItems (ps : List Product) (total : Option ℚ) (acc : List ProcessedItem) :
    List RawItem → Except String (List Product × Option ℚ × List ProcessedItem)
  | [] => .ok (ps, total, acc.reverse)
  | item :: rest =>
    match findActiveProduct ps item.product_id with
    | none =>
      .error ("Product with ID " ++ showOptInt item.product_id ++ " not found or inactive")
    | some product =>
      if stockLt product.stock_quantity item.quantity then
        .error ("Insufficient stock for product " ++ product.name ++ ". Available: "
          ++ showStock product.stock_quantity ++ ", Requested: " ++ showOptInt item.quantity)
      else
        let itemTotal := mulQty product.price item.quantity
        processItems (updateStockSub ps product.id item.quantity)
          (addAmt total itemTotal)
          (⟨product.id, item.quantity, product.price, itemTotal⟩ :: acc) rest

/-- Range check of a `DECIMAL(10,2)` column (`numeric field overflow`
beyond 8 integer digits); `NaN` (`none`) is storable. -/
def decimalOk : Option ℚ → Bool
  | none => true
  | some v => decide (|v| < 100000000)

/-- `INSERT INTO orders (user_id, total_amount, shipping_address,
billing_address) VALUES … RETURNING *`: enforces the `user_id` foreign key
and the `DECIMAL(10,2)` range, allocates the SERIAL id, status defaults to
`pending`. -/
def insertOrder (db : Db) (uid : Int) (total : Option ℚ)
    (ship bill : Option String) : Except String (Order × Db) :=
  if !(db.users.contains uid) then
    .error "insert into orders violates foreign key constraint orders_user_id_fkey"
  else if !(decimalOk total) then
    .error "numeric field overflow"
  else
    let o : Order := ⟨db.nextOrderId, uid, total, "pending", ship, bill⟩
    .ok (o, { db with orders := db.orders ++ [o], nextOrderId := db.nextOrderId + 1 })

/-- The `INSERT INTO order_items …` loop: an `undefined` quantity is sent
as NULL and violates the column's NOT NULL constraint; money columns
enforce the `DECIMAL(10,2)` range. -/
def insertOrderItems (db : Db) (oid : Int) :
    List ProcessedItem → Except String Db
  | [] => .ok db
  | it :: rest =>
    match it.quantity with
    | none => .error "null value in column quantity of relation order_items violates not-null constraint"
    | some q =>
      if !(decimalOk (some it.unit_price)) then
        .error "numeric field overflow"
      else if !(decimalOk it.total_price) then
        .error "numeric field overflow"
      else
        insertOrderItems
          { db with order_items :=
              db.order_items ++ [⟨oid, it.product_id, q, it.unit_price, it.total_price⟩] }
          oid rest

/-- Result of `POST /api/orders`: 201 with the re-queried order and its
items, 400 for the up-front validation failure, or 500 carrying
`err.message` after a rollback. -/
inductive CreateResult
  | created (order : Order) (items : List OrderItem)
  | badRequest (msg : String)
  | serverError (msg : String)
deriving DecidableEq, Repr

/-- The rows of `order_items` for one order (the 201 response re-queries
them after COMMIT). -/
def itemsOfOrder (db : Db) (oid : Int) : List OrderItem :=
  db.order_items.filter (fun it => it.order_id == oid)

/-- `POST /api/orders` (order-service): BEGIN; validate that `user_id` and
a non-empty `items` array are present (JS falsiness: a `user_id` of `0` is
also rejected); run the per-line loop; insert the order row and the item
rows; COMMIT — or ROLLBACK, returning the triggering error message, so
that on any failure the returned state is the original one. -/
def createOrder (db : Db) (req : OrderRequest) : CreateResult × Db :=
  match req.user_id, req.items with
  | some uid, some items =>
    if uid = 0 ∨ items = [] then
      (.badRequest "Missing required fields: user_id and items array", db)
    else
      match processItems db.products (some 0) [] items with
      | .error e => (.serverError e, db)
      | .ok (ps', total, pitems) =>
        match insertOrder { db with products := ps' } uid total
            req.shipping_address req.billing_address with
        | .error e => (.serverError e, db)
        | .ok (o, db1) =>
          match insertOrderItems db1 o.id pitems with
          | .error e => (.serverError e, db)
          | .ok db2 => (.created o (itemsOfOrder db2 o.id), db2)
  | _, _ => (.badRequest "Missing required fields: user_id and items array", db)

/-- The status whitelist of `PATCH /api/orders/:id/status`. -/
def validStatuses : List String :=
  ["pending", "confirmed", "processing", "shipped", "delivered", "cancelled"]

/-- Result of `PATCH /api/orders/:id/status`. -/
inductive StatusResult
  | ok (order : Order)
  | badRequest (msg : String)
  | notFound (msg : String)
deriving DecidableEq, Repr

/-- `PATCH /api/orders/:id/status` (order-service): whitelist the supplied
status string, then `UPDATE orders SET status = $1 WHERE id = $2
RETURNING *` — no check of the order's current status. -/
def updateOrderStatus (db : Db) (orderId : Int) (status : String) : StatusResult × Db :=
  if !(validStatuses.contains status) then
    (.badRequest ("Invalid status. Valid statuses: " ++ String.intercalate ", " validStatuses), db)
  else
    match db.orders.find? (fun o => o.id == orderId) with
    | none => (.notFound "Order not found", db)
    | some o =>
      (.ok { o with status := status },
       { db with orders :=
           db.orders.map (fun q => if q.id = orderId then { q with status := status } else q) })

/-- The stock-restoration loop of `DELETE /api/orders/:id`:
`UPDATE products SET stock_quantity = stock_quantity + $1 WHERE id = $2`
for each item of the order, in sequence. -/
def restoreStock (ps : List Product) : List OrderItem → List Product
  | [] => ps
  | it :: rest =>
    restoreStock
      (ps.map (fun p => if p.id = it.product_id then
        { p with stock_quantity := sqlAdd p.stock_quantity it.quantity } else p)) rest

/-- Result of `DELETE /api/orders/:id`. -/
inductive CancelResult
  | ok (msg : String)
  | badRequest (msg : String)
  | notFound (msg : String)
deriving DecidableEq, Repr

/-- `DELETE /api/orders/:id` (order-service): BEGIN; look the order up
(404 if absent); reject only when its status is `delivered`; otherwise
restore each item's quantity to its product's stock and set the status to
`cancelled`; COMMIT. -/
def cancelOrder (db : Db) (orderId : Int) : CancelResult × Db :=
  match db.orders.find? (fun o => o.id == orderId) with
  | none => (.notFound "Order not found", db)
  | some o =>
    if o.status = "delivered" then
      (.badRequest "Cannot cancel delivered order", db)
    else
      let its := db.order_items.filter (fun it => it.order_id == orderId)
      (.ok "Order cancelled successfully",
       { db with
           products := restoreStock db.products its,
           orders := db.orders.map (fun q =>
             if q.id = orderId then { q with status := "cancelled" } else q) })

/-- Total quantity with which the items `its` reference the product `pid`. -/
def qtySum (its : List OrderItem) (pid : Int) : Int :=
  ((its.filter (fun it => it.product_id == pid)).map (fun it => it.quantity)).sum

/-- The relation between a processed item and the `order_items` row its
insert produces. -/
def InsertedRel (oid : Int) (pi : ProcessedItem) (it : OrderItem) : Prop :=
  it.order_id = oid ∧ it.product_id = pi.product_id ∧ pi.quantity = some it.quantity ∧
  it.unit_price = pi.unit_price ∧ it.total_price = pi.total_price

/-- `PUT /api/products/:id` (product-service) supplying only a new price:
`price = COALESCE($3, price)` updates the product row and touches no other
table. -/
def updateProductPrice (db : Db) (pid : Int) (newPrice : ℚ) : Db :=
  { db with products :=
      db.products.map (fun p => if p.id = pid then { p with price := newPrice } else p) }

/-- A row of `user_sessions` (init.sql): `user_id, session_token VARCHAR
UNIQUE NOT NULL, expires_at TIMESTAMP NOT NULL`; timestamps are modelled
as integers. -/
structure Session where
  user_id : Int
  session_token : String
  expires_at : Int
deriving DecidableEq, Repr

/-- `SELECT user_id FROM user_sessions WHERE session_token = $1 AND
expires_at > NOW()` returned at least one row. -/
def sessionLive (sessions : List Session) (tok : String) (now : Int) : Bool :=
  sessions.any (fun s => s.session_token == tok && decide (now < s.expires_at))

/-- Outcome of the `authenticateToken` middleware (login-service): either
`next()` with the decoded claims attached, or a JSON error response with
its HTTP status code. -/
inductive AuthOutcome
  | proceed (userId : Int)
  | reject (status : Nat) (error : String)
deriving DecidableEq, Repr

/-- `authenticateToken` (login-service): 401 when no bearer token is
present; 403 `Invalid token` when `jwt.verify` throws (the decoder oracle
`jwtDecoded` is `none`); 401 `Invalid or expired session` when no live
session row backs the token; otherwise proceed. -/
def authenticateToken (sessions : List Session) (now : Int)
    (token : Option String) (jwtDecoded : Option Int) : AuthOutcome :=
  match token with
  | none => .reject 401 "Access token required"
  | some t =>
    match jwtDecoded with
    | none => .reject 403 "Invalid token"
    | some uid =>
      if sessionLive sessions t now then .proceed uid
      else .reject 401 "Invalid or expired session"

/-- The JSON body and status of a `POST /api/auth/verify` response:
`error` and `valid` are the fields actually present in the body. -/
structure VerifyResponse where
  status : Nat
  error : Option String
  valid : Option Bool
deriving DecidableEq, Repr

/-- `POST /api/auth/verify` (login-service): 400 without a token; 401 with
body `valid: false, error: Invalid token` when `jwt.verify` throws; 401
with body `error: Invalid or expired session` when no live session row
exists; 200 with `valid: true` otherwise. -/
def verifyEndpoint (sessions : List Session) (now : Int)
    (token : Option String) (jwtDecoded : Option Int) : VerifyResponse :=
  match token with
  | none => ⟨400, some "Token required", none⟩
  | some t =>
    match jwtDecoded with
    | none => ⟨401, some "Invalid token", some false⟩
    | some _ =>
      if sessionLive sessions t now then ⟨200, none, some true⟩
      else ⟨401, some "Invalid or expired session", none⟩

/-- Outcome of the `redisClient.get` call: a cached snapshot, a miss
(`null`), or a rejected promise. -/
inductive CacheGet
  | hit (v : List Product)
  | miss
  | err
deriving DecidableEq, Repr

/-- Outcome of the `redisClient.setEx` call. -/
inductive CacheSet
  | ok
  | err
deriving DecidableEq, Repr

/-- Response of `GET /api/products`. -/
inductive ProductsResult
  | ok (rows : List Product)
  | errorResp (status : Nat) (msg : String)
deriving DecidableEq, Repr

/-- `SELECT * FROM products WHERE is_active = true` (ordering ignored). -/
def liveProducts (db : Db) : List Product :=
  db.products.filter (fun p => p.is_active)

/-- `GET /api/products` (product-service): serve the cached snapshot on a
hit; on a miss, query the store, cache the result, respond with the rows;
any rejected cache promise reaches the catch-all and yields a 500. -/
def getAllProducts (db : Db) (cache : CacheGet) (setRes : CacheSet) : ProductsResult :=
  match cache with
  | .err => .errorResp 500 "Failed to fetch products"
  | .hit v => .ok v
  | .miss =>
    match setRes with
    | .err => .errorResp 500 "Failed to fetch products"
    | .ok => .ok (liveProducts db)

/-!
Binary64 model of JavaScript number arithmetic.  A normal-range double is
the rational `m * 2^e` with `|m| < 2^53`; `round64` sends a rational to
the nearest such value (ties to even), which is exactly what
`parseFloat` on the DECIMAL string and each `*` / `+=` of the
accumulation loop compute.  Exponent search is by fuelled scaling (fuel
1200 covers the full double exponent range); overflow to infinity and
subnormals are outside the currency magnitudes considered.
-/

/-- `2 ^ e` as a rational, for an integer exponent. -/
def twoPow : Int → ℚ
  | .ofNat n => ((2 ^ n : Nat) : ℚ)
  | .negSucc n => 1 / ((2 ^ (n + 1) : Nat) : ℚ)

/-- Raise the exponent while `2 ^ (e + 53) ≤ q`. -/
def eUp (q : ℚ) : Nat → Int → Int
  | 0, e => e
  | fuel + 1, e => if twoPow (e + 53) ≤ q then eUp q fuel (e + 1) else e

/-- Lower the exponent while `q < 2 ^ (e + 52)`. -/
def eDown (q : ℚ) : Nat → Int → Int
  | 0, e => e
  | fuel + 1, e => if q < twoPow (e + 52) then eDown q fuel (e - 1) else e

/-- The binary64 exponent of a positive rational: the `e` with
`2 ^ 52 ≤ q / 2 ^ e < 2 ^ 53` (for normal-range `q`). -/
def findE (q : ℚ) : Int :=
  eDown q 1200 (eUp q 1200 0)

/-- Round a rational to the nearest integer, ties to even. -/
def rndNE (x : ℚ) : Int :=
  let f := x.floor
  let frac := x - (f : ℚ)
  if frac < 1 / 2 then f
  else if 1 / 2 < frac then f + 1
  else if f % 2 = 0 then f else f + 1

/-- Round a positive rational to the nearest binary64 value. -/
def round64pos (q : ℚ) : ℚ :=
  ((rndNE (q / twoPow (findE q)) : ℚ)) * twoPow (findE q)

/-- Round a rational to the nearest binary64 value (round-to-nearest,
ties to even; normal range). -/
def round64 (q : ℚ) : ℚ :=
  if q = 0 then 0
  else if q < 0 then -(round64pos (-q))
  else round64pos q

/-- A JS `*` of two doubles. -/
def jsMul (a b : ℚ) : ℚ := round64 (a * b)

/-- A JS `+` of two doubles. -/
def jsAdd (a b : ℚ) : ℚ := round64 (a + b)

/-- The total-accumulation loop of `POST /api/orders` as the JavaScript
engine evaluates it: `totalAmount += parseFloat(product.price) *
item.quantity`, starting from `0`, where each line is the product's exact
DECIMAL price and the requested integer quantity. -/
def jsTotalAmount (lines : List (ℚ × Int)) : ℚ :=
  lines.foldl (fun acc l => jsAdd acc (jsMul (round64 l.1) ((l.2 : Int) : ℚ))) 0

/-- Modelled from the spec (§4.2 step 5): the order total as the exact
rational sum of `unit_price × quantity` over the lines. -/
def exactTotalAmount (lines : List (ℚ × Int)) : ℚ :=
  (lines.map (fun l => l.1 * ((l.2 : Int) : ℚ))).sum

/-! ### General lemmas about the embedded operations -/

/-- Any outcome of `POST /api/orders` other than a 201 leaves the store
exactly as it was (the 400 path has not touched it; the 500 path rolled
back). -/
lemma createOrder_not_created {db : Db} {req : OrderRequest} {r : CreateResult} {db' : Db}
    (h : createOrder db req = (r, db'))
    (hnc : ∀ o its, r ≠ CreateResult.created o its) : db' = db := by
  obtain ⟨uopt, iopt, ship, bill⟩ := req
  cases uopt <;> cases iopt <;> simp only [createOrder] at h
  · exact (Prod.mk.injEq _ _ _ _ ▸ h).2.symm
  · exact (Prod.mk.injEq _ _ _ _ ▸ h).2.symm
  · exact (Prod.mk.injEq _ _ _ _ ▸ h).2.symm
  · split at h
    · exact (Prod.mk.injEq _ _ _ _ ▸ h).2.symm
    · split at h
      · exact (Prod.mk.injEq _ _ _ _ ▸ h).2.symm
      · split at h
        · exact (Prod.mk.injEq _ _ _ _ ▸ h).2.symm
        · split at h
          · exact (Prod.mk.injEq _ _ _ _ ▸ h).2.symm
          · exact absurd ((Prod.mk.injEq _ _ _ _ ▸ h).1.symm) (hnc _ _)

/-- A `undefined` product id matches no product row. -/
lemma findActiveProduct_none (ps : List Product) : findActiveProduct ps none = none := by
  induction ps with
  | nil => rfl
  | cons p ps ih => simp only [findActiveProduct, List.find?, Option.none_beq_some,
      Bool.false_and]; exact ih

/-- Success of the per-line loop forces every line to carry a product id. -/
lemma processItems_ok_pid (l : List RawItem) : ∀ (ps : List Product) (t : Option ℚ)
    (acc : List ProcessedItem) res, processItems ps t acc l = .ok res →
    ∀ li ∈ l, ∃ pid, li.product_id = some pid := by
  induction l with
  | nil => intro ps t acc res h li hli; cases hli
  | cons item rest ih =>
    intro ps t acc res h li hli
    rw [processItems] at h
    rcases hfind : findActiveProduct ps item.product_id with _ | product
    · simp only [hfind] at h; cases h
    · simp only [hfind] at h
      split at h
      · cases h
      · rcases List.mem_cons.1 hli with hli | hli
        · subst hli
          rcases hpid : li.product_id with _ | pid
          · rw [hpid, findActiveProduct_none] at hfind; cases hfind
          · exact ⟨pid, rfl⟩
        · exact ih _ _ _ _ h li hli

/-- A stock update only rewrites `stock_quantity`: every row of the updated
table comes from a row of the old table with the same id, price and
activity flag. -/
lemma mem_updateStockSub {ps : List Product} {pid : Int} {q : Option Int} {p' : Product}
    (h : p' ∈ updateStockSub ps pid q) :
    ∃ p ∈ ps, p'.id = p.id ∧ p'.price = p.price ∧ p'.is_active = p.is_active := by
  rcases List.mem_map.1 h with ⟨p, hp, hfp⟩
  refine ⟨p, hp, ?_⟩
  by_cases hid : p.id = pid <;> simp [← hfp, hid]

/-- Characterization of a successful run of the per-line loop: the
processed items extend the accumulator, one per line in order, each
carrying its line's quantity, a line total of `unit_price × quantity`, and
the price/activity snapshot of a product row present at entry; the total
is the left fold of the line totals. -/
lemma processItems_ok_spec (l : List RawItem) : ∀ (ps : List Product) (t : Option ℚ)
    (acc : List ProcessedItem) ps' total pitems,
    processItems ps t acc l = .ok (ps', total, pitems) →
    ∃ newPart,
      pitems = acc.reverse ++ newPart ∧
      total = List.foldl addAmt t (newPart.map (fun pi => pi.total_price)) ∧
      newPart.map (fun pi => pi.quantity) = l.map (fun li => li.quantity) ∧
      (∀ pi ∈ newPart, pi.total_price = mulQty pi.unit_price pi.quantity ∧
        ∃ p ∈ ps, p.id = pi.product_id ∧ p.is_active = true ∧ p.price = pi.unit_price) := by
  induction l with
  | nil =>
    intro ps t acc ps' total pitems h
    rw [processItems] at h
    cases h
    exact ⟨[], by simp⟩
  | cons item rest ih =>
    intro ps t acc ps' total pitems h
    rw [processItems] at h
    rcases hfind : findActiveProduct ps item.product_id with _ | product
    · simp only [hfind] at h; cases h
    · simp only [hfind] at h
      split at h
      · cases h
      · rcases ih _ _ _ _ _ _ h with ⟨newPart₁, hpit, htot, hqty, hfacts⟩
        refine ⟨⟨product.id, item.quantity, product.price, mulQty product.price item.quantity⟩
          :: newPart₁, ?_, ?_, ?_, ?_⟩
        · rw [hpit]; simp
        · rw [htot]; simp
        · simp only [List.map_cons, hqty]
        · intro pi hpi
          rcases List.mem_cons.1 hpi with hpi | hpi
          · subst hpi
            refine ⟨rfl, product, List.mem_of_find?_eq_some hfind, rfl, ?_, rfl⟩
            have := List.find?_some hfind
            simp only [Bool.and_eq_true] at this
            exact this.2
          · rcases hfacts pi hpi with ⟨htp, p, hp, hid, hact, hprice⟩
            rcases mem_updateStockSub hp with ⟨p₀, hp₀, hid₀, hprice₀, hact₀⟩
            exact ⟨htp, p₀, hp₀, by rw [← hid₀, hid], by rw [← hact₀, hact], by rw [← hprice₀, hprice]⟩

/-- Characterization of a successful order-row insert. -/
lemma insertOrder_ok_spec {db : Db} {uid : Int} {total : Option ℚ} {ship bill : Option String}
    {o : Order} {db1 : Db} (h : insertOrder db uid total ship bill = .ok (o, db1)) :
    o = ⟨db.nextOrderId, uid, total, "pending", ship, bill⟩ ∧
    db1 = { db with orders := db.orders ++ [o], nextOrderId := db.nextOrderId + 1 } ∧
    db.users.contains uid = true ∧ decimalOk total = true := by
  rw [insertOrder] at h
  split at h
  · cases h
  next hc =>
    split at h
    · cases h
    next hd =>
      cases h
      refine ⟨rfl, rfl, ?_, ?_⟩
      · simpa using hc
      · simpa using hd

/-- Characterization of a successful run of the item-insert loop: it only
appends to `order_items`, one row per processed item, in order. -/
lemma insertOrderItems_ok_spec (l : List ProcessedItem) : ∀ (db : Db) (oid : Int) (db2 : Db),
    insertOrderItems db oid l = .ok db2 →
    ∃ newIts, db2 = { db with order_items := db.order_items ++ newIts } ∧
      List.Forall₂ (InsertedRel oid) l newIts := by
  induction l with
  | nil =>
    intro db oid db2 h
    rw [insertOrderItems] at h
    cases h
    exact ⟨[], by simp, List.Forall₂.nil⟩
  | cons it rest ih =>
    intro db oid db2 h
    rw [insertOrderItems] at h
    rcases hq : it.quantity with _ | q
    · simp only [hq] at h; cases h
    · simp only [hq] at h
      split at h
      · cases h
      · split at h
        · cases h
        · rcases ih _ _ _ h with ⟨newIts₁, hdb2, hrel⟩
          refine ⟨⟨oid, it.product_id, q, it.unit_price, it.total_price⟩ :: newIts₁, ?_, ?_⟩
          · rw [hdb2]; simp
          · exact List.Forall₂.cons ⟨rfl, rfl, hq, rfl, rfl⟩ hrel

/-- Pick the witness on the right of a `Forall₂` for a member of the left
list. -/
lemma forall₂_mem_left {α β : Type} {r : α → β → Prop} {l₁ : List α} {l₂ : List β}
    (h : List.Forall₂ r l₁ l₂) {a : α} (ha : a ∈ l₁) : ∃ b ∈ l₂, r a b := by
  induction h with
  | nil => cases ha
  | cons hr ht ih =>
    rcases List.mem_cons.1 ha with ha | ha
    · exact ⟨_, List.mem_cons_self _ _, ha ▸ hr⟩
    · rcases ih ha with ⟨b, hb, hbr⟩
      exact ⟨b, List.mem_cons_of_mem _ hb, hbr⟩

/-- The line totals recorded on the processed items reappear, wrapped in
`some`, as the `unit_price * quantity` of the inserted rows. -/
lemma forall₂_totals_map {oid : Int} : ∀ {pis : List ProcessedItem} {its : List OrderItem},
    List.Forall₂ (InsertedRel oid) pis its →
    (∀ pi ∈ pis, pi.total_price = mulQty pi.unit_price pi.quantity) →
    pis.map (fun pi => pi.total_price)
      = its.map (fun it => some (it.unit_price * (it.quantity : ℚ))) := by
  intro pis its h
  induction h with
  | nil => intro; rfl
  | cons hr ht ih =>
    intro hall
    obtain ⟨_, _, hq, hu, htp⟩ := hr
    simp only [List.map_cons, List.cons.injEq]
    constructor
    · rw [hall _ (List.mem_cons_self _ _), hq, hu, mulQty]
      rfl
    · exact ih (fun pi hpi => hall pi (List.mem_cons_of_mem _ hpi))

/-- Pick the witness on the left of a `Forall₂` for a member of the right
list. -/
lemma forall₂_mem_right {α β : Type} {r : α → β → Prop} {l₁ : List α} {l₂ : List β}
    (h : List.Forall₂ r l₁ l₂) {b : β} (hb : b ∈ l₂) : ∃ a ∈ l₁, r a b := by
  induction h with
  | nil => cases hb
  | cons hr ht ih =>
    rcases List.mem_cons.1 hb with hb | hb
    · exact ⟨_, List.mem_cons_self _ _, hb ▸ hr⟩
    · rcases ih hb with ⟨a, ha, har⟩
      exact ⟨a, List.mem_cons_of_mem _ ha, har⟩

/-- Folding `+=` over genuinely numeric line totals is exact summation. -/
lemma foldl_addAmt_map_some (qs : List ℚ) : ∀ a : ℚ,
    List.foldl addAmt (some a) (qs.map some) = some (a + qs.sum) := by
  induction qs with
  | nil => intro a; simp [addAmt]
  | cons q rest ih =>
    intro a
    simp only [List.map_cons, List.foldl_cons, addAmt, List.sum_cons, ih, add_assoc]

/-- The sequential stock-restoration loop adds, to every product row, the
total quantity with which the order's items reference it (SQL `NULL` stock
stays `NULL`). -/
lemma restoreStock_eq (its : List OrderItem) : ∀ ps : List Product,
    restoreStock ps its = ps.map (fun p =>
      { p with stock_quantity := p.stock_quantity.map (· + qtySum its p.id) }) := by
  induction its with
  | nil =>
    intro ps
    rw [restoreStock]
    have hid : ∀ p : Product,
        ({ p with stock_quantity := p.stock_quantity.map (· + qtySum [] p.id) }) = p := by
      intro p
      rcases p with ⟨pid, pname, pprice, pstock, pact⟩
      rcases pstock with _ | s <;> simp [qtySum]
    rw [List.map_congr_left (fun p _ => hid p)]
    simp
  | cons it rest ih =>
    intro ps
    rw [restoreStock, ih, List.map_map]
    refine List.map_congr_left (fun p _ => ?_)
    rcases p with ⟨pid, pname, pprice, pstock, pact⟩
    by_cases hid : pid = it.product_id
    · subst hid
      rcases pstock with _ | s <;>
        simp [Function.comp, sqlAdd, qtySum, List.filter_cons, add_assoc]
    · have hpid : (it.product_id == pid) = false := by
        simp
        exact fun h => hid h.symm
      rcases pstock with _ | s <;>
        simp [Function.comp, hid, qtySum, List.filter_cons, hpid]

/-- A stock decrement with a concrete quantity, written as a field map. -/
lemma updateStockSub_some (ps : List Product) (pid : Int) (q : Int) :
    updateStockSub ps pid (some q) = ps.map (fun p =>
      if p.id = pid then { p with stock_quantity := p.stock_quantity.map (· - q) } else p) := by
  rw [updateStockSub]
  refine List.map_congr_left (fun p _ => ?_)
  by_cases hid : p.id = pid
  · rcases p with ⟨ppid, pname, pprice, pstock, pact⟩
    rcases pstock with _ | s <;> simp [hid, sqlSub]
  · simp [hid]

/-- Stock updates do not touch the id column. -/
lemma updateStockSub_map_id (ps : List Product) (pid : Int) (q : Option Int) :
    (updateStockSub ps pid q).map (fun p => p.id) = ps.map (fun p => p.id) := by
  rw [updateStockSub, List.map_map]
  refine List.map_congr_left (fun p _ => ?_)
  by_cases hid : p.id = pid <;> simp [hid]

/-- The per-line loop never drives a (non-NULL) stock negative: the check
against the stock visible inside the transaction precedes each decrement. -/
lemma processItems_stock_inv (l : List RawItem) : ∀ (ps : List Product) (t : Option ℚ)
    (acc : List ProcessedItem) ps' total pitems,
    (ps.map (fun p => p.id)).Nodup →
    (∀ p ∈ ps, ∀ s, p.stock_quantity = some s → 0 ≤ s) →
    processItems ps t acc l = .ok (ps', total, pitems) →
    ∀ p ∈ ps', ∀ s, p.stock_quantity = some s → 0 ≤ s := by
  induction l with
  | nil =>
    intro ps t acc ps' total pitems _ hinv h
    rw [processItems] at h
    cases h
    exact hinv
  | cons item rest ih =>
    intro ps t acc ps' total pitems hnodup hinv h
    rw [processItems] at h
    rcases hfind : findActiveProduct ps item.product_id with _ | product
    · simp only [hfind] at h; cases h
    · simp only [hfind] at h
      split at h
      · cases h
      next hlt =>
        refine ih _ _ _ _ _ _ ?_ ?_ h
        · rw [updateStockSub_map_id]; exact hnodup
        · intro p' hp' s hs
          rcases List.mem_map.1 hp' with ⟨p, hp, hfp⟩
          by_cases hid : p.id = product.id
          · have hpprod : p = product :=
              List.inj_on_of_nodup_map hnodup hp (List.mem_of_find?_eq_some hfind) hid
            subst hpprod
            simp only [hid, if_pos] at hfp
            rw [← hfp] at hs
            simp only at hs
            rcases hq : item.quantity with _ | q
            · rw [hq] at hs; simp [sqlSub] at hs
            · rw [hq] at hs
              rcases hst : p.stock_quantity with _ | s₀
              · rw [hst] at hs; simp [sqlSub] at hs
              · rw [hst] at hs
                simp only [sqlSub, Option.some.injEq] at hs
                have : ¬ (s₀ < q) := by
                  intro hlt'
                  apply hlt
                  rw [hq, hst]
                  simp [stockLt]
                  exact hlt'
                omega
          · simp only [hid, if_neg, not_false_eq_true] at hfp
            rw [← hfp] at hs
            exact hinv p hp s hs

/-- `SELECT … WHERE session_token = $1 AND expires_at > NOW()` finds no row
when every row for the token is expired (or no row matches at all). -/
lemma sessionLive_eq_false {sessions : List Session} {t : String} {now : Int}
    (h : ∀ s ∈ sessions, s.session_token = t → s.expires_at ≤ now) :
    sessionLive sessions t now = false := by
  rw [sessionLive, List.any_eq_false]
  intro s hs
  by_cases htok : s.session_token = t
  · simp [htok, not_lt.2 (h s hs htok)]
  · simp [htok]

/-- Decomposition of a 201 response of `POST /api/orders` into its phases. -/
lemma createOrder_created_spec {db : Db} {req : OrderRequest} {o : Order}
    {items : List OrderItem} {db' : Db}
    (h : createOrder db req = (.created o items, db')) :
    ∃ uid lines ps' total pitems db1 db2,
      req.user_id = some uid ∧ req.items = some lines ∧ ¬(uid = 0 ∨ lines = []) ∧
      processItems db.products (some 0) [] lines = .ok (ps', total, pitems) ∧
      insertOrder { db with products := ps' } uid total req.shipping_address req.billing_address
        = .ok (o, db1) ∧
      db1 = { db with products := ps', orders := db.orders ++ [o], nextOrderId := db.nextOrderId + 1 } ∧
      insertOrderItems db1 o.id pitems = .ok db2 ∧
      db' = db2 ∧ items = itemsOfOrder db2 o.id := by
  obtain ⟨uopt, iopt, ship, bill⟩ := req
  cases uopt with
  | none => simp only [createOrder] at h; cases h
  | some uid =>
    cases iopt with
    | none => simp only [createOrder] at h; cases h
    | some lines =>
      simp only [createOrder] at h
      split at h
      · cases h
      · rcases hpi : processItems db.products (some 0) [] lines with e | ⟨ps', total, pitems⟩
        · rw [hpi] at h; simp at h
        · rw [hpi] at h
          simp only at h
          rcases hio : insertOrder { db with products := ps' } uid total ship bill
            with e | ⟨o₁, db1⟩
          · rw [hio] at h; simp at h
          · rw [hio] at h
            simp only at h
            rcases hii : insertOrderItems db1 o₁.id pitems with e | db2
            · rw [hii] at h; simp at h
            · rw [hii] at h
              simp only at h
              rw [Prod.mk.injEq] at h
              obtain ⟨h1, hdb'⟩ := h
              rw [CreateResult.created.injEq] at h1
              obtain ⟨ho1, hits⟩ := h1
              rcases insertOrder_ok_spec hio with ⟨ho, hdb1, _, _⟩
              subst ho1
              exact ⟨uid, lines, ps', total, pitems, db1, db2, rfl, rfl, by assumption, hpi,
                hio, hdb1, hii, hdb'.symm, hits.symm⟩

/-! ### Claim theorems -/

/-- C1: order creation is atomic.  Whenever `POST /api/orders` answers with
the 500 rollback path (product missing or inactive, insufficient stock, or
an insert/update error), the resulting store state is exactly the input
state — no stock decrement, order row or order-item row persists — and the
error message of the failing step inside the transaction is the message
surfaced to the caller. -/
theorem c1_create_rollback_on_error (db : Db) (req : OrderRequest) :
    (∀ e db', createOrder db req = (.serverError e, db') → db' = db)
    ∧ (∀ uid lines, req.user_id = some uid → uid ≠ 0 → req.items = some lines → lines ≠ [] →
        ∀ e, processItems db.products (some 0) [] lines = .error e →
        createOrder db req = (.serverError e, db)) := by
  constructor
  · intro e db' h
    exact createOrder_not_created h (fun o its => by simp)
  · intro uid lines huid hu hitems hl e herr
    obtain ⟨uopt, iopt, ship, bill⟩ := req
    simp only at huid hitems
    subst huid
    subst hitems
    simp only [createOrder]
    rw [if_neg (not_or.2 ⟨hu, hl⟩), herr]

/-- C1 witness: a concrete two-line store where the request asks for 5
units of a product with stock 1 rolls back with the insufficient-stock
message. -/
theorem c1_witness :
    createOrder ⟨[7], [⟨1, "Widget", 5, some 1, true⟩], [], [], 1⟩
        ⟨some 7, some [⟨some 1, some 5⟩], none, none⟩
      = (.serverError "Insufficient stock for product Widget. Available: 1, Requested: 5",
         ⟨[7], [⟨1, "Widget", 5, some 1, true⟩], [], [], 1⟩) := by
  exact (c1_create_rollback_on_error _ _).2 7 [⟨some 1, some 5⟩] rfl (by decide) rfl (by decide)
    _ rfl

/-- C5 counterexample: neither `delivered` nor `cancelled` is terminal.
In a store whose order 1 is `delivered` and whose order 2 is `cancelled`
(order 2 bought 2 Widgets, current stock 5), the status-update call moves
the delivered order back to `pending`, and cancelling the already-cancelled
order succeeds and performs the stock restoration a second time
(stock 5 becomes 7). -/
theorem c5_counterexample :
    (updateOrderStatus
        ⟨[7], [⟨1, "Widget", 5, some 5, true⟩],
         [⟨1, 7, some 10, "delivered", none, none⟩, ⟨2, 7, some 10, "cancelled", none, none⟩],
         [⟨2, 1, 2, 5, some 10⟩], 3⟩ 1 "pending").2.orders
      = [⟨1, 7, some 10, "pending", none, none⟩, ⟨2, 7, some 10, "cancelled", none, none⟩]
    ∧ (cancelOrder
        ⟨[7], [⟨1, "Widget", 5, some 5, true⟩],
         [⟨1, 7, some 10, "delivered", none, none⟩, ⟨2, 7, some 10, "cancelled", none, none⟩],
         [⟨2, 1, 2, 5, some 10⟩], 3⟩ 2).1 = .ok "Order cancelled successfully"
    ∧ (cancelOrder
        ⟨[7], [⟨1, "Widget", 5, some 5, true⟩],
         [⟨1, 7, some 10, "delivered", none, none⟩, ⟨2, 7, some 10, "cancelled", none, none⟩],
         [⟨2, 1, 2, 5, some 10⟩], 3⟩ 2).2.products = [⟨1, "Widget", 5, some 7, true⟩] := by
  refine ⟨by decide, rfl, by decide⟩

/-- C5 amended: the status machine enforces no terminal states.  The
status-update call sets any whitelisted status regardless of the order's
current status (in particular it moves `delivered` or `cancelled` orders to
any other status), and the cancel operation is refused only for
`delivered`: cancelling an already-`cancelled` order succeeds and performs
its stock restoration again. -/
theorem c5_no_terminal_states (db : Db) (oid : Int) (o : Order)
    (hfind : db.orders.find? (fun q => q.id == oid) = some o) :
    (∀ status, validStatuses.contains status = true →
       (updateOrderStatus db oid status).1 = .ok { o with status := status }
       ∧ (updateOrderStatus db oid status).2.orders
           = db.orders.map (fun q => if q.id = oid then { q with status := status } else q))
    ∧ (o.status = "cancelled" →
       (cancelOrder db oid).1 = .ok "Order cancelled successfully"
       ∧ (cancelOrder db oid).2.products = db.products.map (fun p =>
           { p with stock_quantity := p.stock_quantity.map (· + qtySum (itemsOfOrder db oid) p.id) })) := by
  constructor
  · intro status hs
    rw [updateOrderStatus]
    rw [hs]
    simp [hfind]
  · intro hcanc
    rw [cancelOrder, hfind]
    simp only
    rw [if_neg (by rw [hcanc]; decide)]
    exact ⟨rfl, by simp only; rw [restoreStock_eq]; rfl⟩

/-- C5 witness: applying the amended theorem to a one-order store whose
order is `delivered`, the status-update call rewrites its status to
`confirmed`. -/
theorem c5_witness :
    (updateOrderStatus ⟨[7], [], [⟨1, 7, some 10, "delivered", none, none⟩], [], 2⟩ 1 "confirmed").1
      = .ok ⟨1, 7, some 10, "confirmed", none, none⟩ := by
  exact ((c5_no_terminal_states ⟨[7], [], [⟨1, 7, some 10, "delivered", none, none⟩], [], 2⟩ 1
    ⟨1, 7, some 10, "delivered", none, none⟩ rfl).1 "confirmed" rfl).1

/-- C7 counterexample: a request whose single line is missing its
`product_id` is not rejected as a validation error.  It passes the up-front
validation, enters the transaction, and fails with the 500 rollback path
carrying the not-found message (the `undefined` id matches no row) — not
with a 400 `badRequest`. -/
theorem c7_counterexample :
    createOrder ⟨[7], [⟨1, "Widget", 5, some 10, true⟩], [], [], 1⟩
        ⟨some 7, some [⟨none, some 1⟩], none, none⟩
      = (.serverError "Product with ID undefined not found or inactive",
         ⟨[7], [⟨1, "Widget", 5, some 10, true⟩], [], [], 1⟩)
    ∧ ∀ msg db', createOrder ⟨[7], [⟨1, "Widget", 5, some 10, true⟩], [], [], 1⟩
        ⟨some 7, some [⟨none, some 1⟩], none, none⟩ ≠ (.badRequest msg, db') := by
  refine ⟨rfl, ?_⟩
  intro msg db' hc
  rw [show createOrder ⟨[7], [⟨1, "Widget", 5, some 10, true⟩], [], [], 1⟩
        ⟨some 7, some [⟨none, some 1⟩], none, none⟩
      = (.serverError "Product with ID undefined not found or inactive",
         ⟨[7], [⟨1, "Widget", 5, some 10, true⟩], [], [], 1⟩) from rfl] at hc
  simp at hc

/-- C7 amended: the 400 validation rejects exactly a missing/falsy
`user_id`, a missing `items` field, or an empty `items` array — always
before any state change.  Per-line shape is not validated up front: a
request can only succeed when every line carries both a `product_id` and a
`quantity` (otherwise it fails inside the transaction and is rolled back),
but a malformed line is reported through the 500 path, not as a 400
validation error. -/
theorem c7_validation_scope :
    (∀ (db : Db) (req : OrderRequest),
      req.user_id = none ∨ req.user_id = some 0 ∨ req.items = none ∨ req.items = some [] →
      createOrder db req = (.badRequest "Missing required fields: user_id and items array", db))
    ∧ (∀ (db : Db) (req : OrderRequest) o items db',
        createOrder db req = (.created o items, db') →
        ∃ lines, req.items = some lines ∧
          ∀ li ∈ lines, (∃ pid, li.product_id = some pid) ∧ (∃ q, li.quantity = some q)) := by
  constructor
  · intro db req hcase
    obtain ⟨uopt, iopt, ship, bill⟩ := req
    rcases hcase with h | h | h | h
    · simp only at h
      subst h
      rfl
    · simp only at h
      subst h
      cases iopt with
      | none => rfl
      | some lines => simp [createOrder]
    · simp only at h
      subst h
      cases uopt with
      | none => rfl
      | some uid => rfl
    · simp only at h
      subst h
      cases uopt with
      | none => rfl
      | some uid => simp [createOrder]
  · intro db req o items db' h
    rcases createOrder_created_spec h with
      ⟨uid, lines, ps', total, pitems, db1, db2, _, hitems, _, hpi, _, _, hii, _, _⟩
    refine ⟨lines, hitems, fun li hli => ⟨processItems_ok_pid _ _ _ _ _ hpi li hli, ?_⟩⟩
    rcases processItems_ok_spec _ _ _ _ _ _ _ hpi with ⟨newPart, hnew, _, hqty, _⟩
    rcases insertOrderItems_ok_spec _ _ _ _ hii with ⟨newIts, _, hrel⟩
    have hmem : li.quantity ∈ lines.map (fun li => li.quantity) :=
      List.mem_map.2 ⟨li, hli, rfl⟩
    rw [← hqty] at hmem
    rcases List.mem_map.1 hmem with ⟨pi, hpimem, hpiq⟩
    have hpimem' : pi ∈ pitems := by
      rw [hnew]
      simpa using hpimem
    rcases forall₂_mem_left hrel hpimem' with ⟨it, _, _, _, hq, _, _⟩
    exact ⟨it.quantity, by rw [← hpiq, hq]⟩

unseal Rat.mul Rat.add Rat.sub Rat.inv in
/-- C7 witness: a well-formed concrete request reaches the 201 path (so the
amended success condition applies), and each validation case fires on a
concrete store. -/
theorem c7_witness :
    createOrder ⟨[7], [⟨1, "Widget", 5, some 10, true⟩], [], [], 1⟩ ⟨some 7, none, none, none⟩
      = (.badRequest "Missing required fields: user_id and items array",
         ⟨[7], [⟨1, "Widget", 5, some 10, true⟩], [], [], 1⟩)
    ∧ ∃ lines, (⟨some 7, some [⟨some 1, some 2⟩], none, none⟩ : OrderRequest).items = some lines ∧
        ∀ li ∈ lines, (∃ pid, li.product_id = some pid) ∧ (∃ q, li.quantity = some q) := by
  constructor
  · exact c7_validation_scope.1 _ _ (Or.inr (Or.inr (Or.inl rfl)))
  · exact c7_validation_scope.2 ⟨[7], [⟨1, "Widget", 5, some 10, true⟩], [], [], 1⟩
      ⟨some 7, some [⟨some 1, some 2⟩], none, none⟩
      ⟨1, 7, some 10, "pending", none, none⟩ [⟨1, 1, 2, 5, some 10⟩]
      ⟨[7], [⟨1, "Widget", 5, some 8, true⟩], [⟨1, 7, some 10, "pending", none, none⟩],
       [⟨1, 1, 2, 5, some 10⟩], 2⟩ (by decide)

/-- C8 counterexample: the three auth-failure causes are distinguishable.
An invalid signature is answered by the middleware with 403 and the body
`Invalid token`, while a missing (or expired) session row is answered with
401 and the body `Invalid or expired session`; at the verify endpoint both
are 401 but the bodies differ (`valid: false` is present only for the
signature failure).  The claim that all three produce the same status code
and body is false. -/
theorem c8_counterexample :
    authenticateToken [] 0 (some "t") none = .reject 403 "Invalid token"
    ∧ authenticateToken [] 0 (some "t") (some 1) = .reject 401 "Invalid or expired session"
    ∧ authenticateToken [] 0 (some "t") none ≠ authenticateToken [] 0 (some "t") (some 1)
    ∧ verifyEndpoint [] 0 (some "t") none = ⟨401, some "Invalid token", some false⟩
    ∧ verifyEndpoint [] 0 (some "t") (some 1) = ⟨401, some "Invalid or expired session", none⟩
    ∧ verifyEndpoint [] 0 (some "t") none ≠ verifyEndpoint [] 0 (some "t") (some 1) := by
  exact ⟨rfl, rfl, by decide, rfl, rfl, by decide⟩

/-- C8 amended: every failure cause (invalid signature, missing session
row, expired session row) does deny authentication, and the two
store-backed causes — no session row for the token versus an expired
session row — are mutually indistinguishable (identical middleware outcome
and identical verify-endpoint response); but the signature failure is
distinguishable from the store-backed ones (403 `Invalid token` versus 401
`Invalid or expired session`). -/
theorem c8_auth_failures_deny (sessions : List Session) (now : Int) (t : String)
    (d : Option Int) :
    ((d = none ∨ sessionLive sessions t now = false) →
      ∃ st e, authenticateToken sessions now (some t) d = .reject st e)
    ∧ (∀ sessA sessB : List Session,
        (∀ s ∈ sessA, s.session_token ≠ t) →
        (∀ s ∈ sessB, s.session_token = t → s.expires_at ≤ now) →
        authenticateToken sessA now (some t) d = authenticateToken sessB now (some t) d
        ∧ verifyEndpoint sessA now (some t) d = verifyEndpoint sessB now (some t) d) := by
  constructor
  · intro hcase
    cases d with
    | none => exact ⟨403, "Invalid token", rfl⟩
    | some uid =>
      rcases hcase with h | h
      · cases h
      · refine ⟨401, "Invalid or expired session", ?_⟩
        rw [authenticateToken]
        simp [h]
  · intro sessA sessB hA hB
    have hliveA : sessionLive sessA t now = false :=
      sessionLive_eq_false (fun s hs htok => absurd htok (hA s hs))
    have hliveB : sessionLive sessB t now = false :=
      sessionLive_eq_false hB
    cases d with
    | none => exact ⟨rfl, rfl⟩
    | some uid =>
      constructor
      · rw [authenticateToken, authenticateToken]
        simp [hliveA, hliveB]
      · rw [verifyEndpoint, verifyEndpoint]
        simp [hliveA, hliveB]

/-- C8 witness: with a session table containing only an expired row for
token `t` at time 10, the amended theorem yields a denial, and the
missing-row store and the expired-row store are observably identical. -/
theorem c8_witness :
    (∃ st e, authenticateToken [⟨1, "t", 5⟩] 10 (some "t") (some 1) = .reject st e)
    ∧ authenticateToken [] 10 (some "t") (some 1)
        = authenticateToken [⟨1, "t", 5⟩] 10 (some "t") (some 1)
    ∧ verifyEndpoint [] 10 (some "t") (some 1)
        = verifyEndpoint [⟨1, "t", 5⟩] 10 (some "t") (some 1) := by
  refine ⟨(c8_auth_failures_deny [⟨1, "t", 5⟩] 10 "t" (some 1)).1 (Or.inr (by decide)), ?_, ?_⟩
  · exact ((c8_auth_failures_deny [] 10 "t" (some 1)).2 [] [⟨1, "t", 5⟩]
      (by decide) (by decide)).1
  · exact ((c8_auth_failures_deny [] 10 "t" (some 1)).2 [] [⟨1, "t", 5⟩]
      (by decide) (by decide)).2

/-- C9 counterexample: the product list endpoint is not fail-open on cache
errors.  When the `redisClient.get` promise rejects, the handler's
catch-all answers 500 `Failed to fetch products` instead of the store's
live data. -/
theorem c9_counterexample :
    getAllProducts ⟨[], [⟨1, "Widget", 5, some 10, true⟩], [], [], 1⟩ .err .ok
      = .errorResp 500 "Failed to fetch products"
    ∧ getAllProducts ⟨[], [⟨1, "Widget", 5, some 10, true⟩], [], [], 1⟩ .err .ok
      ≠ .ok (liveProducts ⟨[], [⟨1, "Widget", 5, some 10, true⟩], [], [], 1⟩) := by
  exact ⟨rfl, by decide⟩

/-- C9 amended: the endpoint is fail-open only to cache *absence*: on a
miss with a successful cache write it serves the store's live product rows,
and on a hit it serves the cached snapshot; but an error of either cache
operation (get or set) is answered with a 500 instead of the store's live
data. -/
theorem c9_cache_behavior (db : Db) (setRes : CacheSet) :
    getAllProducts db .miss .ok = .ok (liveProducts db)
    ∧ (∀ v, getAllProducts db (.hit v) setRes = .ok v)
    ∧ getAllProducts db .err setRes = .errorResp 500 "Failed to fetch products"
    ∧ getAllProducts db .miss .err = .errorResp 500 "Failed to fetch products" := by
  refine ⟨rfl, fun v => rfl, ?_, rfl⟩
  cases setRes <;> rfl

/-- C3: order creation never drives a product's stock below zero.  If every
(non-NULL) stock in the store is non-negative and product ids are unique
(the table's primary key), then after any `POST /api/orders` — including
requests naming the same product on several lines, since each line's check
reads the stock as already decremented by the earlier lines of the same
transaction — every stock is still non-negative. -/
theorem c3_stock_nonnegative (db : Db) (req : OrderRequest)
    (hnodup : (db.products.map (fun p => p.id)).Nodup)
    (hinv : ∀ p ∈ db.products, ∀ s, p.stock_quantity = some s → 0 ≤ s) :
    ∀ r db', createOrder db req = (r, db') →
      ∀ p ∈ db'.products, ∀ s, p.stock_quantity = some s → 0 ≤ s := by
  intro r db' h p hp s hs
  by_cases hc : ∃ o its, r = CreateResult.created o its
  · rcases hc with ⟨o, its, rfl⟩
    rcases createOrder_created_spec h with
      ⟨uid, lines, ps', total, pitems, db1, db2, _, _, _, hpi, _, hdb1, hii, hdb', _⟩
    rcases insertOrderItems_ok_spec _ _ _ _ hii with ⟨newIts, hdb2, _⟩
    have hprod : db'.products = ps' := by
      rw [hdb', hdb2, hdb1]
    rw [hprod] at hp
    exact processItems_stock_inv _ _ _ _ _ _ _ hnodup hinv hpi p hp s hs
  · have hdb : db' = db := createOrder_not_created h (fun o its hr => hc ⟨o, its, hr⟩)
    rw [hdb] at hp
    exact hinv p hp s hs

unseal Rat.mul Rat.add Rat.sub Rat.inv in
/-- C3 witness: a request that names the same product twice (4 + 5 units of
a 10-unit stock) succeeds and leaves the stock at 1, still non-negative. -/
theorem c3_witness :
    (∀ p ∈ (createOrder ⟨[7], [⟨1, "Widget", 5, some 10, true⟩], [], [], 1⟩
        ⟨some 7, some [⟨some 1, some 4⟩, ⟨some 1, some 5⟩], none, none⟩).2.products,
      ∀ s, p.stock_quantity = some s → 0 ≤ s)
    ∧ (createOrder ⟨[7], [⟨1, "Widget", 5, some 10, true⟩], [], [], 1⟩
        ⟨some 7, some [⟨some 1, some 4⟩, ⟨some 1, some 5⟩], none, none⟩).2.products
      = [⟨1, "Widget", 5, some 1, true⟩] := by
  constructor
  · intro p hp s hs
    exact c3_stock_nonnegative ⟨[7], [⟨1, "Widget", 5, some 10, true⟩], [], [], 1⟩
      ⟨some 7, some [⟨some 1, some 4⟩, ⟨some 1, some 5⟩], none, none⟩
      (by decide) (by decide) _ _ rfl p hp s hs
  · decide

/-- `UPDATE orders SET status = $1 WHERE id = $2` followed by re-selecting
the row: the map only rewrites the matching row, so the lookup returns the
old row with its status replaced. -/
lemma find?_orders_map_status (os : List Order) (oid : Int) (st : String) :
    (os.map (fun q => if q.id = oid then { q with status := st } else q)).find?
        (fun q => q.id == oid)
      = (os.find? (fun q => q.id == oid)).map
          (fun q => if q.id = oid then { q with status := st } else q) := by
  have hpred : ((fun q : Order => q.id == oid) ∘ fun q =>
      if q.id = oid then { q with status := st } else q) = (fun q => q.id == oid) := by
    funext q
    by_cases hq : q.id = oid <;> simp [Function.comp, hq]
  rw [List.find?_map, hpred]

/-- C4: cancelling a non-`delivered` order succeeds, restores every
referenced product's stock by exactly the total quantity of that order's
items for it, rewrites the order's status to `cancelled`, and leaves the
item rows intact; cancelling a `delivered` order is answered 400 and
changes nothing. -/
theorem c4_cancel_restores_stock (db : Db) (oid : Int) (o : Order)
    (hfind : db.orders.find? (fun q => q.id == oid) = some o) :
    (o.status = "delivered" →
      cancelOrder db oid = (.badRequest "Cannot cancel delivered order", db))
    ∧ (o.status ≠ "delivered" →
      (cancelOrder db oid).1 = .ok "Order cancelled successfully"
      ∧ (cancelOrder db oid).2.orders.find? (fun q => q.id == oid)
          = some { o with status := "cancelled" }
      ∧ (cancelOrder db oid).2.order_items = db.order_items
      ∧ (cancelOrder db oid).2.users = db.users
      ∧ (cancelOrder db oid).2.products = db.products.map (fun p =>
          { p with stock_quantity := p.stock_quantity.map (· + qtySum (itemsOfOrder db oid) p.id) })) := by
  have hoid : o.id = oid := by simpa using List.find?_some hfind
  constructor
  · intro hdel
    rw [cancelOrder, hfind]
    simp only
    rw [if_pos hdel]
  · intro hdel
    rw [cancelOrder, hfind]
    simp only
    rw [if_neg hdel]
    refine ⟨rfl, ?_, rfl, rfl, ?_⟩
    · show (db.orders.map fun q => if q.id = oid then { q with status := "cancelled" } else q).find?
          (fun q => q.id == oid) = some { o with status := "cancelled" }
      rw [find?_orders_map_status, hfind, Option.map_some', if_pos hoid]
    · show restoreStock db.products (db.order_items.filter (fun it => it.order_id == oid))
          = _
      rw [restoreStock_eq]
      rfl

unseal Rat.mul Rat.add Rat.sub Rat.inv in
/-- C4 witness: cancelling a concrete pending order (2 Widgets) restores
the stock from 5 to 7 and re-lookup finds the order `cancelled`; cancelling
a concrete delivered order is refused and returns the store unchanged. -/
theorem c4_witness :
    (cancelOrder ⟨[7], [⟨1, "Widget", 5, some 5, true⟩],
        [⟨1, 7, some 10, "pending", none, none⟩], [⟨1, 1, 2, 5, some 10⟩], 2⟩ 1).1
      = .ok "Order cancelled successfully"
    ∧ (cancelOrder ⟨[7], [⟨1, "Widget", 5, some 5, true⟩],
        [⟨1, 7, some 10, "pending", none, none⟩], [⟨1, 1, 2, 5, some 10⟩], 2⟩ 1).2.products
      = [⟨1, "Widget", 5, some 7, true⟩]
    ∧ cancelOrder ⟨[7], [⟨1, "Widget", 5, some 5, true⟩],
        [⟨1, 7, some 10, "delivered", none, none⟩], [⟨1, 1, 2, 5, some 10⟩], 2⟩ 1
      = (.badRequest "Cannot cancel delivered order",
         ⟨[7], [⟨1, "Widget", 5, some 5, true⟩],
          [⟨1, 7, some 10, "delivered", none, none⟩], [⟨1, 1, 2, 5, some 10⟩], 2⟩) := by
  have h := (c4_cancel_restores_stock ⟨[7], [⟨1, "Widget", 5, some 5, true⟩],
      [⟨1, 7, some 10, "pending", none, none⟩], [⟨1, 1, 2, 5, some 10⟩], 2⟩ 1
      ⟨1, 7, some 10, "pending", none, none⟩ rfl).2 (by decide)
  have h2 := (c4_cancel_restores_stock ⟨[7], [⟨1, "Widget", 5, some 5, true⟩],
      [⟨1, 7, some 10, "delivered", none, none⟩], [⟨1, 1, 2, 5, some 10⟩], 2⟩ 1
      ⟨1, 7, some 10, "delivered", none, none⟩ rfl).1 rfl
  refine ⟨h.1, ?_, h2⟩
  rw [h.2.2.2.2]
  decide

/-- C2: for every successfully created order, the stored `total_amount` is
exactly the sum of its stored items' `unit_price * quantity` (each item's
`total_price` equals that product), each item's `unit_price` is the
matching active product's price as it stood in the store when the request
arrived (a snapshot), and a later price update (`PUT /api/products/:id`)
rewrites only the product table, never the stored order or its items.  The
`hwf` hypothesis says the SERIAL id about to be allocated is fresh, which
every store reachable through the API satisfies. -/
theorem c2_total_amount_is_item_sum (db : Db) (req : OrderRequest) (o : Order)
    (items : List OrderItem) (db' : Db)
    (hwf : ∀ it ∈ db.order_items, it.order_id ≠ db.nextOrderId)
    (h : createOrder db req = (.created o items, db')) :
    o.total_amount = some ((items.map (fun it => it.unit_price * (it.quantity : ℚ))).sum)
    ∧ (∀ it ∈ items, it.total_price = some (it.unit_price * (it.quantity : ℚ)))
    ∧ (∀ it ∈ items, ∃ p ∈ db.products,
        p.id = it.product_id ∧ p.is_active = true ∧ p.price = it.unit_price)
    ∧ (∀ pid newPrice, (updateProductPrice db' pid newPrice).order_items = db'.order_items
        ∧ (updateProductPrice db' pid newPrice).orders = db'.orders) := by
  rcases createOrder_created_spec h with
    ⟨uid, lines, ps', total, pitems, db1, db2, huid, hitems, hval, hpi, hio, hdb1, hii, hdb', hits⟩
  rcases insertOrder_ok_spec hio with ⟨ho, _, _, _⟩
  rcases processItems_ok_spec _ _ _ _ _ _ _ hpi with ⟨newPart, hnew, htot, hqmap, hfacts⟩
  rcases insertOrderItems_ok_spec _ _ _ _ hii with ⟨newIts, hdb2, hrel⟩
  have hpn : pitems = newPart := by simpa using hnew
  subst hpn
  have hoid : o.id = db.nextOrderId := by rw [ho]
  have hot : o.total_amount = total := by rw [ho]
  have hitems_eq : items = newIts := by
    rw [hits, hdb2, itemsOfOrder]
    have hdbitems : db1.order_items = db.order_items := by rw [hdb1]
    simp only [hdbitems]
    rw [List.filter_append]
    have h1 : db.order_items.filter (fun it => it.order_id == o.id) = [] := by
      rw [List.filter_eq_nil_iff]
      intro it hit
      simp [hoid, hwf it hit]
    have h2 : newIts.filter (fun it => it.order_id == o.id) = newIts := by
      rw [List.filter_eq_self]
      intro it hit
      rcases forall₂_mem_right hrel hit with ⟨pi, _, hrelit⟩
      simp [hrelit.1, hoid]
    rw [h1, h2]
    rfl
  have hmap : pitems.map (fun pi => pi.total_price)
      = newIts.map (fun it => some (it.unit_price * (it.quantity : ℚ))) :=
    forall₂_totals_map hrel (fun pi hpim => (hfacts pi hpim).1)
  refine ⟨?_, ?_, ?_, fun pid newPrice => ⟨rfl, rfl⟩⟩
  · rw [hot, htot, hmap, hitems_eq]
    have : newIts.map (fun it => some (it.unit_price * (it.quantity : ℚ)))
        = (newIts.map (fun it => it.unit_price * (it.quantity : ℚ))).map some := by
      rw [List.map_map]
      rfl
    rw [this, foldl_addAmt_map_some, zero_add]
  · intro it hit
    rw [hitems_eq] at hit
    rcases forall₂_mem_right hrel hit with ⟨pi, hpimem, hrelit⟩
    obtain ⟨_, _, hq, hu, htp⟩ := hrelit
    rw [htp, (hfacts pi hpimem).1, hq, hu, mulQty]
    rfl
  · intro it hit
    rw [hitems_eq] at hit
    rcases forall₂_mem_right hrel hit with ⟨pi, hpimem, hrelit⟩
    obtain ⟨_, hpid, _, hu, _⟩ := hrelit
    rcases (hfacts pi hpimem).2 with ⟨p, hp, hid, hact, hprice⟩
    exact ⟨p, hp, by rw [hpid, hid], hact, by rw [hu, hprice]⟩

unseal Rat.mul Rat.add Rat.sub Rat.inv in
/-- C2 witness: the spec's own scenario — two lines (price 10 × qty 2,
price 5 × qty 1) — creates an order with `total_amount = 25` equal to the
sum of the stored line totals. -/
theorem c2_witness :
    (⟨1, 7, some 25, "pending", none, none⟩ : Order).total_amount
      = some ((([⟨1, 1, 2, 10, some 20⟩, ⟨1, 2, 1, 5, some 5⟩] : List OrderItem).map
          (fun it => it.unit_price * (it.quantity : ℚ))).sum)
    ∧ (∀ it ∈ ([⟨1, 1, 2, 10, some 20⟩, ⟨1, 2, 1, 5, some 5⟩] : List OrderItem),
        it.total_price = some (it.unit_price * (it.quantity : ℚ))) := by
  have h := c2_total_amount_is_item_sum
    ⟨[7], [⟨1, "A", 10, some 5, true⟩, ⟨2, "B", 5, some 4, true⟩], [], [], 1⟩
    ⟨some 7, some [⟨some 1, some 2⟩, ⟨some 2, some 1⟩], none, none⟩
    ⟨1, 7, some 25, "pending", none, none⟩
    [⟨1, 1, 2, 10, some 20⟩, ⟨1, 2, 1, 5, some 5⟩]
    ⟨[7], [⟨1, "A", 10, some 3, true⟩, ⟨2, "B", 5, some 3, true⟩],
     [⟨1, 7, some 25, "pending", none, none⟩],
     [⟨1, 1, 2, 10, some 20⟩, ⟨1, 2, 1, 5, some 5⟩], 2⟩
    (by decide) (by decide)
  exact ⟨h.1, h.2.1⟩

/-- C10 (implicit): a line whose quantity is zero or negative passes the
insufficient-stock check (a non-negative stock is never strictly below a
non-positive quantity), and such an order can succeed: a single-line
request with quantity `q ≤ 0` against a product with stock `s ≥ 0` creates
the order with total `price * q` (zero for `q = 0`, a decrease by
`price * |q|` for `q < 0`) and sets the product's stock to `s - q`
(unchanged for `q = 0`, increased by `|q|` for `q < 0`). -/
theorem c10_nonpositive_quantity_lines (db : Db) (u q s pid : Int)
    (product : Product) (ship bill : Option String)
    (hu : u ≠ 0) (huser : db.users.contains u = true)
    (hfind : findActiveProduct db.products (some pid) = some product)
    (hstock : product.stock_quantity = some s) (hs : 0 ≤ s) (hq : q ≤ 0)
    (hp1 : decimalOk (some product.price) = true)
    (hp2 : decimalOk (some (product.price * (q : ℚ))) = true) :
    stockLt product.stock_quantity (some q) = false
    ∧ ∃ o its db',
        createOrder db ⟨some u, some [⟨some pid, some q⟩], ship, bill⟩ = (.created o its, db')
        ∧ o.total_amount = some ((0 : ℚ) + product.price * (q : ℚ))
        ∧ db'.products = db.products.map (fun p =>
            if p.id = product.id then { p with stock_quantity := p.stock_quantity.map (· - q) }
            else p) := by
  have hlt : stockLt product.stock_quantity (some q) = false := by
    rw [hstock]
    simp only [stockLt, Option.getD_some, decide_eq_false_iff_not, not_lt]
    omega
  refine ⟨hlt, ?_⟩
  have hproc : processItems db.products (some 0) [] [⟨some pid, some q⟩]
      = .ok (updateStockSub db.products product.id (some q),
             some ((0 : ℚ) + product.price * (q : ℚ)),
             [⟨product.id, some q, product.price, some (product.price * (q : ℚ))⟩]) := by
    rw [processItems]
    simp only [hfind, hlt, Bool.false_eq_true, if_false]
    rw [processItems]
    simp [mulQty, addAmt]
  have hd : decimalOk (some ((0 : ℚ) + product.price * (q : ℚ))) = true := by
    rw [zero_add]
    exact hp2
  have heval : createOrder db ⟨some u, some [⟨some pid, some q⟩], ship, bill⟩
      = (.created ⟨db.nextOrderId, u, some ((0 : ℚ) + product.price * (q : ℚ)), "pending", ship, bill⟩
          (itemsOfOrder { db with products := updateStockSub db.products product.id (some q), orders := db.orders ++ [⟨db.nextOrderId, u, some ((0 : ℚ) + product.price * (q : ℚ)), "pending", ship, bill⟩], order_items := db.order_items ++ [⟨db.nextOrderId, product.id, q, product.price, some (product.price * (q : ℚ))⟩], nextOrderId := db.nextOrderId + 1 } db.nextOrderId),
         { db with products := updateStockSub db.products product.id (some q), orders := db.orders ++ [⟨db.nextOrderId, u, some ((0 : ℚ) + product.price * (q : ℚ)), "pending", ship, bill⟩], order_items := db.order_items ++ [⟨db.nextOrderId, product.id, q, product.price, some (product.price * (q : ℚ))⟩], nextOrderId := db.nextOrderId + 1 }) := by
    simp only [createOrder]
    rw [if_neg (not_or.2 ⟨hu, by simp⟩)]
    simp only [hproc]
    rw [insertOrder]
    simp only [huser, Bool.not_true, Bool.false_eq_true, if_false, hd]
    rw [insertOrderItems]
    simp only [hp1, hp2, Bool.not_true, Bool.false_eq_true, if_false]
    rw [insertOrderItems]
  refine ⟨_, _, _, heval, rfl, ?_⟩
  simp only
  rw [updateStockSub_some]

unseal Rat.mul Rat.add Rat.sub Rat.inv in
/-- C10 witness: a single-line order of quantity −3 for a 10-unit-stock,
price-5 product passes the stock check and succeeds, with total
`0 + 5 * (−3)` and the stock raised by 3. -/
theorem c10_witness :
    stockLt (some 10) (some (-3)) = false
    ∧ ∃ o its db', createOrder ⟨[7], [⟨1, "Widget", 5, some 10, true⟩], [], [], 1⟩
        ⟨some 7, some [⟨some 1, some (-3)⟩], none, none⟩ = (.created o its, db')
        ∧ o.total_amount = some ((0 : ℚ) + (5 : ℚ) * ((-3 : Int) : ℚ))
        ∧ db'.products = [⟨1, "Widget", 5, some 10, true⟩].map (fun p =>
            if p.id = 1 then { p with stock_quantity := p.stock_quantity.map (· - (-3)) }
            else p) := by
  exact c10_nonpositive_quantity_lines ⟨[7], [⟨1, "Widget", 5, some 10, true⟩], [], [], 1⟩
    7 (-3) 10 1 ⟨1, "Widget", 5, some 10, true⟩ none none (by decide) (by decide) rfl
    rfl (by decide) (by decide) (by decide) (by decide)

/-! ### Lemmas about the binary64 rounding model -/

lemma twoPow_pos (e : Int) : 0 < twoPow e := by
  cases e with
  | ofNat n =>
    rw [twoPow]
    exact_mod_cast Nat.pos_pow_of_pos n (by omega)
  | negSucc n =>
    rw [twoPow]
    apply div_pos one_pos
    exact_mod_cast Nat.pos_pow_of_pos (n + 1) (by omega)

lemma eUp_zero {q : ℚ} (h : q < twoPow 53) : eUp q 1200 0 = 0 := by
  have h1200 : (1200 : Nat) = 1199 + 1 := rfl
  rw [h1200, eUp]
  have h53 : (0 : Int) + 53 = 53 := by norm_num
  rw [h53, if_neg (not_le.2 h)]

lemma eDown_le (q : ℚ) : ∀ (fuel : Nat) (e : Int), eDown q fuel e ≤ e := by
  intro fuel
  induction fuel with
  | zero => intro e; rw [eDown]
  | succ n ih =>
    intro e
    rw [eDown]
    split
    · exact le_trans (ih (e - 1)) (by omega)
    · exact le_refl e

lemma findE_nonpos {q : ℚ} (h : q < twoPow 53) : findE q ≤ 0 := by
  rw [findE, eUp_zero h]
  exact eDown_le q 1200 0

lemma twoPow_int_div {m : ℤ} {e : Int} (he : e ≤ 0) :
    ∃ k : ℤ, (m : ℚ) / twoPow e = (k : ℚ) := by
  cases e with
  | ofNat n =>
    have he' : (n : ℤ) ≤ 0 := he
    have hn : n = 0 := by omega
    subst hn
    refine ⟨m, ?_⟩
    rw [twoPow]
    norm_num
  | negSucc n =>
    refine ⟨m * (2 ^ (n + 1) : ℕ), ?_⟩
    rw [twoPow, one_div, div_inv_eq_mul]
    push_cast
    ring

lemma rndNE_intCast (k : ℤ) : rndNE (k : ℚ) = k := by
  rw [rndNE]
  have hfl : ((k : ℚ)).floor = k := by
    rw [Rat.floor_def']
    simp [Rat.num_intCast, Rat.den_intCast]
  simp only [hfl, sub_self]
  norm_num

lemma round64pos_intCast {k : ℤ} (h53 : (k : ℚ) < twoPow 53) :
    round64pos (k : ℚ) = (k : ℚ) := by
  rw [round64pos]
  rcases twoPow_int_div (m := k) (findE_nonpos h53) with ⟨j, hj⟩
  rw [hj, rndNE_intCast, ← hj, div_mul_cancel₀]
  exact ne_of_gt (twoPow_pos _)

lemma twoPow_53_eq : twoPow 53 = ((2 ^ 53 : ℕ) : ℚ) := rfl

/-- Integer values of magnitude below `2^53` are exactly representable in
binary64: rounding is the identity on them. -/
lemma round64_intCast {k : ℤ} (h : |k| < 2 ^ 53) : round64 (k : ℚ) = (k : ℚ) := by
  rcases lt_trichotomy k 0 with hneg | rfl | hpos
  · have hk0 : (k : ℚ) ≠ 0 := by exact_mod_cast ne_of_lt hneg
    have hklt : (k : ℚ) < 0 := by exact_mod_cast hneg
    rw [round64, if_neg hk0, if_pos hklt]
    have hcast : (-(k : ℚ)) = ((-k : ℤ) : ℚ) := by push_cast; ring
    have hbound : ((-k : ℤ) : ℚ) < twoPow 53 := by
      rw [twoPow_53_eq]
      have : (-k : ℤ) < 2 ^ 53 := by
        rw [abs_lt] at h
        omega
      exact_mod_cast this
    rw [hcast, round64pos_intCast hbound]
    push_cast
    ring
  · simp [round64]
  · have hk0 : (k : ℚ) ≠ 0 := by
      have : (0 : ℚ) < (k : ℚ) := by exact_mod_cast hpos
      exact ne_of_gt this
    have hknlt : ¬ ((k : ℚ) < 0) := by
      have : (0 : ℚ) < (k : ℚ) := by exact_mod_cast hpos
      exact not_lt.2 (le_of_lt this)
    have hbound : (k : ℚ) < twoPow 53 := by
      rw [twoPow_53_eq]
      have : k < 2 ^ 53 := by
        rw [abs_lt] at h
        omega
      exact_mod_cast this
    rw [round64, if_neg hk0, if_neg hknlt, round64pos_intCast hbound]

unseal Rat.mul Rat.add Rat.sub Rat.inv in
/-- C6 counterexample: the total-accumulation loop is evaluated in IEEE-754
binary64, not exact decimal arithmetic.  For the single line price 0.10 ×
quantity 3 the computed double differs from the exact rational sum 0.30
(`parseFloat("0.10")` rounds to `3602879701896397 / 2^55`, and the product
rounds again). -/
theorem c6_counterexample :
    jsTotalAmount [(1 / 10, 3)] ≠ exactTotalAmount [(1 / 10, 3)] := by
  decide

unseal Rat.mul Rat.add Rat.sub Rat.inv in
/-- C6 amended: order totals are accumulated in binary64 floating point
(`totalAmount += parseFloat(price) * quantity`), so the computed total
equals the exact rational sum only when every value that arises is exactly
representable — in particular for integer prices and line totals of
magnitude below `2^53`, which covers the spec's own scenario
(10 × 2 + 5 × 1 = 25); for fractional decimal prices the computed double
can differ from the exact sum. -/
theorem c6_binary64_accumulation :
    (∀ p q : ℤ, |p| < 2 ^ 53 → |p * q| < 2 ^ 53 →
      jsTotalAmount [((p : ℚ), q)] = exactTotalAmount [((p : ℚ), q)])
    ∧ jsTotalAmount [(10, 2), (5, 1)] = 25
    ∧ exactTotalAmount [(10, 2), (5, 1)] = 25 := by
  refine ⟨?_, by decide, by decide⟩
  intro p q hp hpq
  rw [jsTotalAmount, exactTotalAmount]
  simp only [List.foldl_cons, List.foldl_nil, List.map_cons, List.map_nil, List.sum_cons,
    List.sum_nil]
  rw [jsMul, jsAdd, round64_intCast hp]
  have hcast : ((p : ℚ) * ((q : ℤ) : ℚ)) = ((p * q : ℤ) : ℚ) := by push_cast; ring
  rw [hcast, round64_intCast hpq, zero_add, round64_intCast hpq, add_zero]

/-- C6 witness: the amended exactness at the concrete integer line
price 10 × quantity 3. -/
theorem c6_witness :
    jsTotalAmount [(((10 : ℤ) : ℚ), 3)] = exactTotalAmount [(((10 : ℤ) : ℚ), 3)] :=
  c6_binary64_accumulation.1 10 3 (by decide) (by decide)
